import Mathlib

/-!
Verification of the deterministic financial-validation and trend-analysis engine
of the luma repository (backend/app/agents/form_auditor and backend/app/agents/analyst).

The Python source is shallowly embedded: pydantic models become structures,
Python floats become exact rationals (the checks only add, subtract, compare and
multiply by decimal literals, so rational arithmetic reproduces the algorithms;
the compound-growth-rate exponentiation is embedded over the reals), Python
dictionaries become insertion-ordered association lists, and exceptions become
an explicit error type.  String messages that interpolate Python float
formatting (the comma-grouped two-decimal rendering) are embedded with the
exact rational rendered by toString instead; no claim depends on those digits.
-/

/-- Severity enum from form_auditor/models.py: Pass, Warning, Error. -/
inductive Severity where
  | PASS
  | WARNING
  | ERROR
deriving DecidableEq, Repr

/-- The numeric order used by aggregate_findings and build_section_summaries:
Error maps to 3, Warning to 2, Pass to 1 (the order dict in checks.py). -/
def sevRank : Severity → ℕ
  | Severity.ERROR => 3
  | Severity.WARNING => 2
  | Severity.PASS => 1

/-- AuditFinding model from form_auditor/models.py. -/
structure AuditFinding where
  check_id : String
  category : String
  severity : Severity
  message : String
  mitigation : Option String := none
  confidence : ℚ
deriving DecidableEq, Repr

/-- AuditSectionSummary model from form_auditor/models.py. -/
structure AuditSectionSummary where
  «section» : String
  severity : Severity
  summary : String
  confidence : ℚ
deriving DecidableEq, Repr

/-- RevenueBreakdown model from form_auditor/models.py: total plus 11 category fields. -/
structure RevenueBreakdown where
  total_revenue : ℚ
  contributions_gifts_grants : ℚ
  program_service_revenue : ℚ
  membership_dues : ℚ
  investment_income : ℚ
  gains_losses_sales_assets : ℚ
  rental_income : ℚ
  related_organizations_revenue : ℚ
  gaming_revenue : ℚ
  other_revenue : ℚ
  government_grants : ℚ
  foreign_contributions : ℚ
deriving DecidableEq, Repr

/-- ExpensesBreakdown model from form_auditor/models.py: total, the three
functional categories, and the remaining 13 line items. -/
structure ExpensesBreakdown where
  total_expenses : ℚ
  program_services_expenses : ℚ
  management_general_expenses : ℚ
  fundraising_expenses : ℚ
  grants_us_organizations : ℚ
  grants_us_individuals : ℚ
  grants_foreign_organizations : ℚ
  grants_foreign_individuals : ℚ
  compensation_officers : ℚ
  compensation_other_staff : ℚ
  payroll_taxes_benefits : ℚ
  professional_fees : ℚ
  office_occupancy_costs : ℚ
  information_technology_costs : ℚ
  travel_conference_expenses : ℚ
  depreciation_amortization : ℚ
  insurance : ℚ
deriving DecidableEq, Repr

/-- FundraisingGrantmaking model from form_auditor/models.py. -/
structure FundraisingGrantmaking where
  total_fundraising_event_revenue : ℚ
  total_fundraising_event_expenses : ℚ
  professional_fundraiser_fees : ℚ
deriving DecidableEq, Repr

/-- CoreOrganizationMetadata model from form_auditor/models.py.  These are the
13 declared fields; note that no calendar_year field is declared. -/
structure CoreOrganizationMetadata where
  ein : String
  legal_name : String
  phone_number : String
  website_url : String
  return_type : String
  amended_return : String
  group_exemption_number : String
  subsection_code : String
  ruling_date : String
  accounting_method : String
  organization_type : String
  year_of_formation : String
  incorporation_state : String
deriving DecidableEq, Repr

/-- ExtractedIrsForm990PfDataSchema from form_auditor/models.py, restricted to
the sections read by the operations verified here (core metadata, revenue,
expenses, fundraising/grantmaking).  The remaining sections (balance sheet,
officers, governance, program accomplishments, operational data, compensation,
lobbying, investments, tax compliance) are not consulted by the checked code
paths of the claims and are omitted from the embedding. -/
structure ExtractedIrsForm990PfDataSchema where
  core_organization_metadata : CoreOrganizationMetadata
  revenue_breakdown : RevenueBreakdown
  expenses_breakdown : ExpensesBreakdown
  fundraising_grantmaking : FundraisingGrantmaking
deriving DecidableEq, Repr

/-- aggregate_findings from checks.py: fold over the findings keeping the
severity of highest rank, starting from Pass. -/
def aggregate_findings (findings : List AuditFinding) : Severity :=
  findings.foldl
    (fun overall finding =>
      if sevRank overall < sevRank finding.severity then finding.severity else overall)
    Severity.PASS

/-- The sum computed by check_revenue_totals: every field of the revenue
breakdown dump except total_revenue itself. -/
def revenueSubtotal (r : RevenueBreakdown) : ℚ :=
  r.contributions_gifts_grants + r.program_service_revenue + r.membership_dues
    + r.investment_income + r.gains_losses_sales_assets + r.rental_income
    + r.related_organizations_revenue + r.gaming_revenue + r.other_revenue
    + r.government_grants + r.foreign_contributions

/-- check_revenue_totals from checks.py.  The formatted dollar amounts in the
messages are rendered with toString on the exact rational. -/
def check_revenue_totals (data : ExtractedIrsForm990PfDataSchema) : AuditFinding :=
  let subtotal := revenueSubtotal data.revenue_breakdown
  if |subtotal - data.revenue_breakdown.total_revenue| ≤ 1 then
    { check_id := "revenue_totals"
      category := "Revenue"
      severity := Severity.PASS
      message := "Revenue categories sum ($" ++ toString subtotal ++ ") matches total revenue."
      mitigation := some "Maintain detailed support for each revenue source to preserve reconciliation trail."
      confidence := 0.95 }
  else
    { check_id := "revenue_totals"
      category := "Revenue"
      severity := Severity.ERROR
      message := "Revenue categories sum ($" ++ toString subtotal
        ++ ") does not equal reported total ($"
        ++ toString data.revenue_breakdown.total_revenue ++ ")."
      mitigation := some "Recalculate revenue totals and correct line items or Schedule A before filing."
      confidence := 0.95 }

/-- check_expense_totals from checks.py: the three functional categories
against the reported total. -/
def check_expense_totals (data : ExtractedIrsForm990PfDataSchema) : AuditFinding :=
  let subtotal := data.expenses_breakdown.program_services_expenses
    + data.expenses_breakdown.management_general_expenses
    + data.expenses_breakdown.fundraising_expenses
  if |subtotal - data.expenses_breakdown.total_expenses| ≤ 1 then
    { check_id := "expense_totals"
      category := "Expenses"
      severity := Severity.PASS
      message := "Functional expenses match total expenses."
      mitigation := some "Keep functional allocation workpapers to support the reconciliation."
      confidence := 0.95 }
  else
    { check_id := "expense_totals"
      category := "Expenses"
      severity := Severity.ERROR
      message := "Functional expenses ($" ++ toString subtotal
        ++ ") do not reconcile to total expenses ($"
        ++ toString data.expenses_breakdown.total_expenses ++ ")."
      mitigation := some "Review Part I, lines 23-27 and reclassify functional expenses to tie to Part II totals."
      confidence := 0.95 }

/-- check_fundraising_alignment from checks.py.  The Python truthiness test on
reported_fundraising is embedded as a nonzero test. -/
def check_fundraising_alignment (data : ExtractedIrsForm990PfDataSchema) : AuditFinding :=
  let reported_fundraising := data.expenses_breakdown.fundraising_expenses
  let event_expenses := data.fundraising_grantmaking.total_fundraising_event_expenses
  let difference := |reported_fundraising - event_expenses|
  if difference ≤ 1 then
    { check_id := "fundraising_alignment"
      category := "Fundraising"
      severity := Severity.PASS
      message := "Fundraising functional expenses align with reported event expenses."
      mitigation := some "Retain event ledgers and allocations to support matching totals."
      confidence := 0.9 }
  else
    let severity :=
      if reported_fundraising ≠ 0 ∧ difference ≤ reported_fundraising * 0.1 then
        Severity.WARNING
      else Severity.ERROR
    { check_id := "fundraising_alignment"
      category := "Fundraising"
      severity := severity
      message := "Fundraising functional expenses ($" ++ toString reported_fundraising
        ++ ") differ from reported event expenses ($" ++ toString event_expenses
        ++ ") by $" ++ toString difference ++ "."
      mitigation := some "Reconcile Schedule G and Part I allocations to eliminate the variance."
      confidence := 0.85 }

/-- A concrete validated filing used to instantiate the claims on explicit
inputs (values follow the end-to-end scenario of the specification). -/
def sampleFiling : ExtractedIrsForm990PfDataSchema :=
  { core_organization_metadata :=
      { ein := "12-3456789"
        legal_name := "Acme Foundation"
        phone_number := "555-0100"
        website_url := "https://acme.example.org"
        return_type := "990"
        amended_return := "No"
        group_exemption_number := ""
        subsection_code := "501(c)(3)"
        ruling_date := "1990-01-01"
        accounting_method := "Accrual"
        organization_type := "Corporation"
        year_of_formation := "1989"
        incorporation_state := "DE" }
    revenue_breakdown :=
      { total_revenue := 5227
        contributions_gifts_grants := 5227
        program_service_revenue := 0
        membership_dues := 0
        investment_income := 0
        gains_losses_sales_assets := 0
        rental_income := 0
        related_organizations_revenue := 0
        gaming_revenue := 0
        other_revenue := 0
        government_grants := 0
        foreign_contributions := 0 }
    expenses_breakdown :=
      { total_expenses := 2104
        program_services_expenses := 0
        management_general_expenses := 0
        fundraising_expenses := 2104
        grants_us_organizations := 0
        grants_us_individuals := 0
        grants_foreign_organizations := 0
        grants_foreign_individuals := 0
        compensation_officers := 0
        compensation_other_staff := 0
        payroll_taxes_benefits := 0
        professional_fees := 0
        office_occupancy_costs := 0
        information_technology_costs := 0
        travel_conference_expenses := 0
        depreciation_amortization := 0
        insurance := 0 }
    fundraising_grantmaking :=
      { total_fundraising_event_revenue := 0
        total_fundraising_event_expenses := 2104
        professional_fundraiser_fees := 0 } }

/-- A copy of the sample filing with the reported fundraising functional
expense and the fundraising-event expense replaced, used for the concrete
tolerance scenarios of the fundraising-alignment claim. -/
def withFundraising (d : ExtractedIrsForm990PfDataSchema) (reported event : ℚ) :
    ExtractedIrsForm990PfDataSchema :=
  { d with
    expenses_breakdown := { d.expenses_breakdown with fundraising_expenses := reported }
    fundraising_grantmaking :=
      { d.fundraising_grantmaking with total_fundraising_event_expenses := event } }

/-- C1: for every validated filing, the revenue-totals check sums all revenue
categories except the total field itself and returns Pass exactly when the
absolute difference from total_revenue is at most 1 unit and Error otherwise;
the expense-totals check sums program plus management/general plus fundraising
and returns Pass exactly when the absolute difference from total_expenses is at
most 1 unit and Error otherwise; both checks carry confidence 0.95 in both
outcomes. -/
theorem C1_revenue_expense_totals (d : ExtractedIrsForm990PfDataSchema) :
    (check_revenue_totals d).severity =
      (if |(d.revenue_breakdown.contributions_gifts_grants
            + d.revenue_breakdown.program_service_revenue
            + d.revenue_breakdown.membership_dues
            + d.revenue_breakdown.investment_income
            + d.revenue_breakdown.gains_losses_sales_assets
            + d.revenue_breakdown.rental_income
            + d.revenue_breakdown.related_organizations_revenue
            + d.revenue_breakdown.gaming_revenue
            + d.revenue_breakdown.other_revenue
            + d.revenue_breakdown.government_grants
            + d.revenue_breakdown.foreign_contributions)
            - d.revenue_breakdown.total_revenue| ≤ 1
        then Severity.PASS else Severity.ERROR)
    ∧ (check_revenue_totals d).confidence = 0.95
    ∧ (check_expense_totals d).severity =
      (if |(d.expenses_breakdown.program_services_expenses
            + d.expenses_breakdown.management_general_expenses
            + d.expenses_breakdown.fundraising_expenses)
            - d.expenses_breakdown.total_expenses| ≤ 1
        then Severity.PASS else Severity.ERROR)
    ∧ (check_expense_totals d).confidence = 0.95 := by
  refine ⟨?_, ?_, ?_, ?_⟩ <;>
    simp only [check_revenue_totals, check_expense_totals, revenueSubtotal] <;>
    split <;> rfl

/-- C5: the fundraising-alignment check is Pass with confidence 0.9 when the
absolute difference between the reported fundraising functional expense and the
fundraising-event expense is at most 1; otherwise it carries confidence 0.85
and is Warning when the reported expense is nonzero and the difference is at
most 10 percent of it, else Error.  At a reported expense of 1000: a
difference of exactly 1 is Pass, a difference of 9 percent (90) is Warning,
and a difference of 11 percent (110) is Error. -/
theorem C5_fundraising_alignment (d : ExtractedIrsForm990PfDataSchema) :
    ((check_fundraising_alignment d).severity =
      (if |d.expenses_breakdown.fundraising_expenses
            - d.fundraising_grantmaking.total_fundraising_event_expenses| ≤ 1
        then Severity.PASS
        else if d.expenses_breakdown.fundraising_expenses ≠ 0
            ∧ |d.expenses_breakdown.fundraising_expenses
                - d.fundraising_grantmaking.total_fundraising_event_expenses|
              ≤ d.expenses_breakdown.fundraising_expenses * 0.1
          then Severity.WARNING else Severity.ERROR)
    ∧ (check_fundraising_alignment d).confidence =
      (if |d.expenses_breakdown.fundraising_expenses
            - d.fundraising_grantmaking.total_fundraising_event_expenses| ≤ 1
        then (0.9 : ℚ) else 0.85))
    ∧ (check_fundraising_alignment (withFundraising sampleFiling 1000 1001)).severity
        = Severity.PASS
    ∧ (check_fundraising_alignment (withFundraising sampleFiling 1000 1090)).severity
        = Severity.WARNING
    ∧ (check_fundraising_alignment (withFundraising sampleFiling 1000 1110)).severity
        = Severity.ERROR := by
  refine ⟨⟨?_, ?_⟩, ?_, ?_, ?_⟩
  · simp only [check_fundraising_alignment]
    split
    · rfl
    · split <;> rfl
  · simp only [check_fundraising_alignment]
    split <;> rfl
  · norm_num [check_fundraising_alignment, withFundraising, sampleFiling]
  · norm_num [check_fundraising_alignment, withFundraising, sampleFiling]
  · norm_num [check_fundraising_alignment, withFundraising, sampleFiling]

/-- Fold characterization behind aggregate_findings: the result dominates the
accumulator and every finding, and is either the accumulator or the severity
of some finding in the list. -/
theorem aggregate_foldl_spec (findings : List AuditFinding) (s : Severity) :
    sevRank s ≤ sevRank (findings.foldl
      (fun overall finding =>
        if sevRank overall < sevRank finding.severity then finding.severity else overall) s)
    ∧ (∀ f ∈ findings, sevRank f.severity ≤ sevRank (findings.foldl
      (fun overall finding =>
        if sevRank overall < sevRank finding.severity then finding.severity else overall) s))
    ∧ ((findings.foldl
      (fun overall finding =>
        if sevRank overall < sevRank finding.severity then finding.severity else overall) s) = s
      ∨ ∃ f ∈ findings, (findings.foldl
      (fun overall finding =>
        if sevRank overall < sevRank finding.severity then finding.severity else overall) s) = f.severity) := by
  induction findings generalizing s with
  | nil => simp
  | cons g rest ih =>
    simp only [List.foldl_cons]
    by_cases h : sevRank s < sevRank g.severity
    · simp only [if_pos h]
      obtain ⟨h1, h2, h3⟩ := ih g.severity
      refine ⟨le_trans (le_of_lt h) h1, ?_, ?_⟩
      · intro f hf
        rcases List.mem_cons.mp hf with hf | hf
        · simpa [hf] using h1
        · exact h2 f hf
      · rcases h3 with h3 | ⟨f, hf, hfe⟩
        · exact Or.inr ⟨g, List.mem_cons_self g rest, h3⟩
        · exact Or.inr ⟨f, List.mem_cons_of_mem g hf, hfe⟩
    · simp only [if_neg h]
      obtain ⟨h1, h2, h3⟩ := ih s
      refine ⟨h1, ?_, ?_⟩
      · intro f hf
        rcases List.mem_cons.mp hf with hf | hf
        · subst hf
          exact le_trans (le_of_not_lt h) h1
        · exact h2 f hf
      · rcases h3 with h3 | ⟨f, hf, hfe⟩
        · exact Or.inl h3
        · exact Or.inr ⟨f, List.mem_cons_of_mem g hf, hfe⟩

/-- C6: aggregate_findings of the empty list is Pass, and for every non-empty
finding list it returns the maximum severity among the findings under the
order Error(3) greater than Warning(2) greater than Pass(1): it dominates every
finding and is attained by one of them. -/
theorem C6_aggregate_findings_max :
    aggregate_findings [] = Severity.PASS
    ∧ ∀ findings : List AuditFinding, findings ≠ [] →
        (∀ f ∈ findings, sevRank f.severity ≤ sevRank (aggregate_findings findings))
        ∧ ∃ f ∈ findings, aggregate_findings findings = f.severity := by
  refine ⟨rfl, ?_⟩
  intro findings hne
  obtain ⟨h1, h2, h3⟩ := aggregate_foldl_spec findings Severity.PASS
  refine ⟨h2, ?_⟩
  rcases h3 with h3 | h3
  · obtain ⟨g, rest, rfl⟩ := List.exists_cons_of_ne_nil hne
    refine ⟨g, List.mem_cons_self g rest, ?_⟩
    have hg := h2 g (List.mem_cons_self g rest)
    rw [aggregate_findings, h3] at *
    cases hsev : g.severity <;> simp [hsev, sevRank] at hg ⊢
  · exact h3

/-- Witness for C6 at a concrete non-empty list: a Warning and an Error
finding aggregate to Error, which dominates both and is attained. -/
theorem C6_aggregate_findings_max_witness :
    (∀ f ∈ [({ check_id := "a", category := "c", severity := Severity.WARNING,
                message := "m", mitigation := none, confidence := 0.5 } : AuditFinding),
              { check_id := "b", category := "c", severity := Severity.ERROR,
                message := "m", mitigation := none, confidence := 0.5 }],
        sevRank f.severity ≤ sevRank (aggregate_findings
          [{ check_id := "a", category := "c", severity := Severity.WARNING,
              message := "m", mitigation := none, confidence := 0.5 },
            { check_id := "b", category := "c", severity := Severity.ERROR,
                message := "m", mitigation := none, confidence := 0.5 }]))
    ∧ ∃ f ∈ [({ check_id := "a", category := "c", severity := Severity.WARNING,
                message := "m", mitigation := none, confidence := 0.5 } : AuditFinding),
              { check_id := "b", category := "c", severity := Severity.ERROR,
                message := "m", mitigation := none, confidence := 0.5 }],
        aggregate_findings
          [{ check_id := "a", category := "c", severity := Severity.WARNING,
              message := "m", mitigation := none, confidence := 0.5 },
            { check_id := "b", category := "c", severity := Severity.ERROR,
                message := "m", mitigation := none, confidence := 0.5 }] = f.severity :=
  C6_aggregate_findings_max.2 _ (by decide)

/-- One Python dict assignment keyed by string: replace the value in place when
the key is present (dict update), otherwise append at the end (dict insert).
This is the insertion-ordered dictionary semantics used by _merge_findings. -/
def dictInsert : List (String × AuditFinding) → String → AuditFinding → List (String × AuditFinding)
  | [], k, v => [(k, v)]
  | p :: rest, k, v =>
    if p.1 = k then (p.1, v) :: rest else p :: dictInsert rest k v

/-- Dictionary lookup: the value stored at the first entry with the key. -/
def dictGet (m : List (String × AuditFinding)) (k : String) : Option AuditFinding :=
  (m.find? (fun p => p.1 == k)).map Prod.snd

/-- _merge_findings from form_auditor/agent.py: build an insertion-ordered map
keyed by check_id from the base findings, overwrite/insert from the added
findings, and return the values. -/
def _merge_findings (findings added : List AuditFinding) : List AuditFinding :=
  let existing := findings.foldl (fun m f => dictInsert m f.check_id f) []
  let merged := added.foldl (fun m f => dictInsert m f.check_id f) existing
  merged.map Prod.snd

/-- Lookup of a finding by its check identifier in a finding list. -/
def findByCheckId (findings : List AuditFinding) (k : String) : Option AuditFinding :=
  findings.find? (fun f => f.check_id == k)

theorem dictInsert_fresh (m : List (String × AuditFinding)) (k : String) (v : AuditFinding)
    (h : ∀ p ∈ m, p.1 ≠ k) : dictInsert m k v = m ++ [(k, v)] := by
  induction m with
  | nil => rfl
  | cons p rest ih =>
    have hp : p.1 ≠ k := h p (List.mem_cons_self p rest)
    simp only [dictInsert, if_neg hp, List.cons_append, List.cons.injEq, true_and]
    exact ih (fun q hq => h q (List.mem_cons_of_mem p hq))

theorem dictInsert_eq_self (m : List (String × AuditFinding)) (k : String) (v : AuditFinding)
    (hmem : k ∈ m.map Prod.fst) (hval : ∀ p ∈ m, p.1 = k → p.2 = v) :
    dictInsert m k v = m := by
  induction m with
  | nil => simp at hmem
  | cons p rest ih =>
    by_cases hp : p.1 = k
    · have : p.2 = v := hval p (List.mem_cons_self p rest) hp
      simp only [dictInsert, if_pos hp, ← this]
    · simp only [dictInsert, if_neg hp, List.cons.injEq, true_and]
      refine ih ?_ (fun q hq hq1 => hval q (List.mem_cons_of_mem p hq) hq1)
      simp only [List.map_cons, List.mem_cons] at hmem
      exact hmem.resolve_left (fun he => hp he.symm)

theorem dictGet_cons (p : String × AuditFinding) (rest : List (String × AuditFinding))
    (k : String) :
    dictGet (p :: rest) k = if p.1 = k then some p.2 else dictGet rest k := by
  by_cases h : p.1 = k
  · simp [dictGet, List.find?, h]
  · simp [dictGet, List.find?, beq_eq_false_iff_ne.mpr h, h]

theorem dictGet_insert (m : List (String × AuditFinding)) (k k' : String) (v : AuditFinding) :
    dictGet (dictInsert m k v) k' = if k' = k then some v else dictGet m k' := by
  induction m with
  | nil =>
    by_cases h : k' = k
    · simp [dictInsert, dictGet_cons, h]
    · simp [dictInsert, dictGet_cons, h, Ne.symm h, dictGet]
  | cons p rest ih =>
    by_cases hp : p.1 = k
    · simp only [dictInsert, if_pos hp]
      by_cases h : k' = k
      · subst h
        simp [dictGet_cons, hp]
      · have hpk : p.1 ≠ k' := fun e => h (e.symm.trans hp)
        simp [dictGet_cons, hpk, h]
    · simp only [dictInsert, if_neg hp]
      by_cases hpk : p.1 = k'
      · have h : k' ≠ k := fun e => hp (hpk.trans e)
        simp [dictGet_cons, hpk, h]
      · simp [dictGet_cons, hpk, ih]

/-- Invariant of the merge dictionaries: every entry is keyed by the check
identifier of the finding it stores. -/
def WellKeyed (m : List (String × AuditFinding)) : Prop :=
  ∀ p ∈ m, p.2.check_id = p.1

theorem wellKeyed_insert (m : List (String × AuditFinding)) (f : AuditFinding)
    (hm : WellKeyed m) : WellKeyed (dictInsert m f.check_id f) := by
  induction m with
  | nil =>
    intro p hp
    simp only [dictInsert, List.mem_singleton] at hp
    simp [hp]
  | cons q rest ih =>
    by_cases hq : q.1 = f.check_id
    · simp only [dictInsert, if_pos hq]
      intro p hp
      rcases List.mem_cons.mp hp with hp | hp
      · simp [hp, hq]
      · exact hm p (List.mem_cons_of_mem q hp)
    · simp only [dictInsert, if_neg hq]
      intro p hp
      rcases List.mem_cons.mp hp with hp | hp
      · exact hp ▸ hm q (List.mem_cons_self q rest)
      · exact ih (fun r hr => hm r (List.mem_cons_of_mem q hr)) p hp

theorem wellKeyed_foldl (fs : List AuditFinding) (m : List (String × AuditFinding))
    (hm : WellKeyed m) :
    WellKeyed (fs.foldl (fun m f => dictInsert m f.check_id f) m) := by
  induction fs generalizing m with
  | nil => exact hm
  | cons c rest ih => exact ih _ (wellKeyed_insert m c hm)

theorem findByCheckId_map_snd (m : List (String × AuditFinding)) (k : String)
    (hw : WellKeyed m) : findByCheckId (m.map Prod.snd) k = dictGet m k := by
  induction m with
  | nil => rfl
  | cons p rest ih =>
    have hp : p.2.check_id = p.1 := hw p (List.mem_cons_self p rest)
    have hrest : WellKeyed rest := fun q hq => hw q (List.mem_cons_of_mem p hq)
    by_cases h : p.1 = k
    · simp [findByCheckId, List.find?, dictGet_cons, hp, h]
    · have hne : p.2.check_id ≠ k := fun e => h (hp.symm.trans e)
      simp only [List.map_cons, findByCheckId, List.find?,
        beq_eq_false_iff_ne.mpr hne, dictGet_cons, if_neg h]
      exact ih hrest

theorem dictGet_foldl_not_mem (fs : List AuditFinding) (m : List (String × AuditFinding))
    (k : String) (h : k ∉ fs.map (fun f => f.check_id)) :
    dictGet (fs.foldl (fun m f => dictInsert m f.check_id f) m) k = dictGet m k := by
  induction fs generalizing m with
  | nil => rfl
  | cons c rest ih =>
    simp only [List.map_cons, List.mem_cons, not_or] at h
    simp only [List.foldl_cons]
    rw [ih (dictInsert m c.check_id c) h.2, dictGet_insert, if_neg h.1]

theorem dictGet_foldl_added (added : List AuditFinding)
    (h : (added.map (fun f => f.check_id)).Nodup) :
    ∀ m : List (String × AuditFinding), ∀ g ∈ added,
      dictGet (added.foldl (fun m f => dictInsert m f.check_id f) m) g.check_id = some g := by
  induction added with
  | nil => intro m g hg; simp at hg
  | cons c rest ih =>
    intro m g hg
    simp only [List.map_cons, List.nodup_cons] at h
    simp only [List.foldl_cons]
    rcases List.mem_cons.mp hg with hg | hg
    · subst hg
      rw [dictGet_foldl_not_mem rest (dictInsert m g.check_id g) g.check_id h.1,
        dictGet_insert, if_pos rfl]
    · exact ih h.2 (dictInsert m c.check_id c) g hg

theorem foldl_base_pairs (fs : List AuditFinding) :
    ∀ m : List (String × AuditFinding),
      (fs.map (fun f => f.check_id)).Nodup →
      (∀ f ∈ fs, ∀ p ∈ m, p.1 ≠ f.check_id) →
      fs.foldl (fun m f => dictInsert m f.check_id f) m
        = m ++ fs.map (fun f => (f.check_id, f)) := by
  induction fs with
  | nil => intro m _ _; simp
  | cons c rest ih =>
    intro m hn hd
    simp only [List.map_cons, List.nodup_cons] at hn
    simp only [List.foldl_cons]
    rw [dictInsert_fresh m c.check_id c
      (fun p hp => hd c (List.mem_cons_self c rest) p hp)]
    rw [ih (m ++ [(c.check_id, c)]) hn.2 ?_]
    · simp
    · intro f hf p hp
      rcases List.mem_append.mp hp with hp | hp
      · exact hd f (List.mem_cons_of_mem c hf) p hp
      · simp only [List.mem_singleton] at hp
        subst hp
        intro e
        exact hn.1 (by rw [show c.check_id = f.check_id from e]
                       exact List.mem_map_of_mem (fun f => f.check_id) hf)

theorem dictGet_of_mem_nodup (m : List (String × AuditFinding))
    (hn : (m.map Prod.fst).Nodup) (p : String × AuditFinding) (hp : p ∈ m) :
    dictGet m p.1 = some p.2 := by
  induction m with
  | nil => simp at hp
  | cons q rest ih =>
    simp only [List.map_cons, List.nodup_cons] at hn
    rcases List.mem_cons.mp hp with hp | hp
    · subst hp
      rw [dictGet_cons, if_pos rfl]
    · have hq : q.1 ≠ p.1 :=
        fun e => hn.1 (e ▸ List.mem_map_of_mem Prod.fst hp)
      rw [dictGet_cons, if_neg hq]
      exact ih hn.2 hp

theorem foldl_insert_self (fs : List AuditFinding) :
    ∀ m : List (String × AuditFinding),
      (m.map Prod.fst).Nodup →
      (∀ f ∈ fs, (f.check_id, f) ∈ m) →
      fs.foldl (fun m f => dictInsert m f.check_id f) m = m := by
  induction fs with
  | nil => intro m _ _; rfl
  | cons c rest ih =>
    intro m hnk hmem
    simp only [List.foldl_cons]
    have hins : dictInsert m c.check_id c = m := by
      refine dictInsert_eq_self m c.check_id c ?_ ?_
      · exact List.mem_map_of_mem Prod.fst (hmem c (List.mem_cons_self c rest))
      · intro p hp hp1
        have hmemc := hmem c (List.mem_cons_self c rest)
        have := List.inj_on_of_nodup_map hnk hp hmemc (by simpa using hp1)
        simp [this]
    rw [hins]
    exact ih m hnk (fun f hf => hmem f (List.mem_cons_of_mem c hf))

/-- C8: merging a finding list with pairwise-distinct check identifiers with
itself yields the identical list (no duplication, order preserved), and on an
identifier collision between the base set and the additional set the
additional entry replaces the base entry: every added finding is what the
merged set stores under its identifier, while base findings whose identifier
does not occur in the additional set survive unchanged. -/
theorem C8_merge_findings :
    (∀ findings : List AuditFinding, (findings.map (fun f => f.check_id)).Nodup →
      _merge_findings findings findings = findings)
    ∧ ∀ findings added : List AuditFinding,
        (findings.map (fun f => f.check_id)).Nodup →
        (added.map (fun f => f.check_id)).Nodup →
        (∀ g ∈ added, findByCheckId (_merge_findings findings added) g.check_id = some g)
        ∧ (∀ f ∈ findings, f.check_id ∉ added.map (fun f => f.check_id) →
            findByCheckId (_merge_findings findings added) f.check_id = some f) := by
  constructor
  · intro findings h
    have hbase : findings.foldl (fun m f => dictInsert m f.check_id f) []
        = findings.map (fun f => (f.check_id, f)) := by
      simpa using foldl_base_pairs findings [] h (by simp)
    have hkeys : ((findings.map (fun f => (f.check_id, f))).map Prod.fst).Nodup := by
      simpa [List.map_map, Function.comp_def] using h
    simp only [_merge_findings]
    rw [hbase, foldl_insert_self findings _ hkeys
      (fun f hf => List.mem_map_of_mem (fun f => (f.check_id, f)) hf)]
    simp [List.map_map, Function.comp_def]
  · intro findings added hn ha
    have hbase : findings.foldl (fun m f => dictInsert m f.check_id f) []
        = findings.map (fun f => (f.check_id, f)) := by
      simpa using foldl_base_pairs findings [] hn (by simp)
    have hkeys : ((findings.map (fun f => (f.check_id, f))).map Prod.fst).Nodup := by
      simpa [List.map_map, Function.comp_def] using hn
    have hw : WellKeyed (added.foldl (fun m f => dictInsert m f.check_id f)
        (findings.foldl (fun m f => dictInsert m f.check_id f) [])) :=
      wellKeyed_foldl added _ (wellKeyed_foldl findings [] (by intro p hp; simp at hp))
    constructor
    · intro g hg
      simp only [_merge_findings]
      rw [findByCheckId_map_snd _ _ hw]
      exact dictGet_foldl_added added ha _ g hg
    · intro f hf hnotin
      simp only [_merge_findings]
      rw [findByCheckId_map_snd _ _ hw,
        dictGet_foldl_not_mem added _ _ hnotin, hbase]
      simpa using dictGet_of_mem_nodup (findings.map (fun f => (f.check_id, f))) hkeys
        (f.check_id, f) (List.mem_map_of_mem (fun f => (f.check_id, f)) hf)

/-- A deterministic base finding used in concrete merge scenarios. -/
def findingA : AuditFinding :=
  { check_id := "revenue_totals", category := "Revenue", severity := Severity.PASS,
    message := "ok", mitigation := none, confidence := 0.95 }

/-- A second deterministic base finding with a distinct identifier. -/
def findingB : AuditFinding :=
  { check_id := "expense_totals", category := "Expenses", severity := Severity.WARNING,
    message := "warn", mitigation := none, confidence := 0.6 }

/-- A model-proposed replacement finding colliding with findingB on check_id. -/
def findingB2 : AuditFinding :=
  { check_id := "expense_totals", category := "Expenses", severity := Severity.ERROR,
    message := "replaced", mitigation := some "fix", confidence := 0.8 }

/-- Witness for C8 on concrete lists: self-merge of a two-element list with
distinct identifiers is the identity, and on a collision the added finding
wins while the untouched base finding survives. -/
theorem C8_merge_findings_witness :
    _merge_findings [findingA, findingB] [findingA, findingB] = [findingA, findingB]
    ∧ findByCheckId (_merge_findings [findingA, findingB] [findingB2]) findingB2.check_id
        = some findingB2
    ∧ findByCheckId (_merge_findings [findingA, findingB] [findingB2]) findingA.check_id
        = some findingA := by
  refine ⟨C8_merge_findings.1 [findingA, findingB] (by decide), ?_, ?_⟩
  · exact (C8_merge_findings.2 [findingA, findingB] [findingB2] (by decide) (by decide)).1
      findingB2 (by simp)
  · exact (C8_merge_findings.2 [findingA, findingB] [findingB2] (by decide) (by decide)).2
      findingA (by simp) (by decide)

/-- Category keys in defaultdict insertion order: the categories in order of
first appearance in the finding list. -/
def dedupFirst : List String → List String
  | [] => []
  | c :: rest => c :: (dedupFirst rest).filter (fun d => d ≠ c)

/-- The summary built by build_section_summaries for one category group: the
findings of the category in their original relative order, the aggregated
severity, the tally string listing all three severity counts, and the mean
confidence. -/
def sectionSummaryFor (findings : List AuditFinding) (category : String) : AuditSectionSummary :=
  let category_findings := findings.filter (fun f => f.category == category)
  let npass := category_findings.countP (fun f => decide (f.severity = Severity.PASS))
  let nwarn := category_findings.countP (fun f => decide (f.severity = Severity.WARNING))
  let nerr := category_findings.countP (fun f => decide (f.severity = Severity.ERROR))
  { «section» := category
    severity := aggregate_findings category_findings
    summary := category ++ " review: " ++ toString npass ++ " passes, "
      ++ toString nwarn ++ " warnings, " ++ toString nerr ++ " errors."
    confidence := (category_findings.map (fun f => f.confidence)).sum
      / (category_findings.length : ℚ) }

/-- The Python sort key of build_section_summaries: negated severity rank,
then the lowercased section name; this is the strict order used by the stable
insertion below. -/
def summaryKeyLt (a b : AuditSectionSummary) : Bool :=
  decide (sevRank b.severity < sevRank a.severity
    ∨ (sevRank a.severity = sevRank b.severity ∧ a.«section».toLower < b.«section».toLower))

/-- Stable insertion for the ascending sort by the tuple key used in
build_section_summaries: an element is placed before the first strictly
greater element, so equal keys keep their original order, matching the
stability guarantee of the Python list sort. -/
def insertSummary (x : AuditSectionSummary) : List AuditSectionSummary → List AuditSectionSummary
  | [] => [x]
  | y :: ys => if summaryKeyLt y x then y :: insertSummary x ys else x :: y :: ys

/-- Stable insertion sort over summaries (same output as the stable Python
sort with key (-severity rank, lowercased section)). -/
def sortSummaries : List AuditSectionSummary → List AuditSectionSummary
  | [] => []
  | x :: xs => insertSummary x (sortSummaries xs)

/-- build_section_summaries from checks.py: group the findings by category in
first-appearance order, build each category summary, then sort by severity
descending and section name (lowercased) ascending. -/
def build_section_summaries (findings : List AuditFinding) : List AuditSectionSummary :=
  sortSummaries ((dedupFirst (findings.map (fun f => f.category))).map
    (sectionSummaryFor findings))

theorem mem_insertSummary (s x : AuditSectionSummary) (l : List AuditSectionSummary) :
    s ∈ insertSummary x l ↔ s = x ∨ s ∈ l := by
  induction l with
  | nil => simp [insertSummary]
  | cons y ys ih =>
    by_cases h : summaryKeyLt y x
    · simp only [insertSummary, if_pos h, List.mem_cons, ih]
      tauto
    · simp only [insertSummary, if_neg h, List.mem_cons]

theorem mem_sortSummaries (s : AuditSectionSummary) (l : List AuditSectionSummary) :
    s ∈ sortSummaries l ↔ s ∈ l := by
  induction l with
  | nil => simp [sortSummaries]
  | cons x xs ih => simp [sortSummaries, mem_insertSummary, ih]

theorem mem_dedupFirst (c : String) (l : List String) : c ∈ dedupFirst l ↔ c ∈ l := by
  induction l with
  | nil => simp [dedupFirst]
  | cons d rest ih =>
    by_cases h : c = d
    · simp [dedupFirst, h]
    · simp [dedupFirst, h, List.mem_filter, ih]

/-- C3 counterexample: on a single passing Revenue finding the produced tally
string is "1 passes, 0 warnings, 0 errors", so components with a zero count
are NOT omitted, contradicting the claim that the tally omits zero counts
(the claimed string would be "Revenue review: 1 passes."). -/
theorem C3_zero_counts_not_omitted :
    ((build_section_summaries [findingA]).map (fun s => s.summary))
        = ["Revenue review: 1 passes, 0 warnings, 0 errors."]
    ∧ "Revenue review: 1 passes, 0 warnings, 0 errors." ≠ "Revenue review: 1 passes." :=
  ⟨rfl, by decide⟩

/-- C3 amended: build_section_summaries groups findings by category and
produces, per category, the tally string "N passes, N warnings, N errors"
listing all three components (zero counts included), the aggregated (maximum)
severity of the category, and the arithmetic mean of the category's
confidences; every category appearing in the findings is covered. -/
theorem C3_section_summaries (findings : List AuditFinding) :
    (∀ s ∈ build_section_summaries findings,
      s.severity = aggregate_findings (findings.filter (fun f => f.category == s.«section»))
      ∧ s.summary = s.«section» ++ " review: "
          ++ toString ((findings.filter (fun f => f.category == s.«section»)).countP
              (fun f => decide (f.severity = Severity.PASS))) ++ " passes, "
          ++ toString ((findings.filter (fun f => f.category == s.«section»)).countP
              (fun f => decide (f.severity = Severity.WARNING))) ++ " warnings, "
          ++ toString ((findings.filter (fun f => f.category == s.«section»)).countP
              (fun f => decide (f.severity = Severity.ERROR))) ++ " errors."
      ∧ s.confidence = ((findings.filter (fun f => f.category == s.«section»)).map
            (fun f => f.confidence)).sum
          / (((findings.filter (fun f => f.category == s.«section»)).length : ℚ)))
    ∧ ∀ f ∈ findings, ∃ s ∈ build_section_summaries findings, s.«section» = f.category := by
  constructor
  · intro s hs
    rw [build_section_summaries, mem_sortSummaries] at hs
    obtain ⟨c, hc, rfl⟩ := List.mem_map.mp hs
    exact ⟨rfl, rfl, rfl⟩
  · intro f hf
    refine ⟨sectionSummaryFor findings f.category, ?_, rfl⟩
    rw [build_section_summaries, mem_sortSummaries]
    exact List.mem_map_of_mem (sectionSummaryFor findings)
      ((mem_dedupFirst f.category _).mpr (List.mem_map_of_mem (fun f => f.category) hf))

/-- Witness for C3 at a concrete input: the single-finding list produces a
summary for category Revenue whose severity is the aggregate of the group,
and the category is covered. -/
theorem C3_section_summaries_witness :
    (sectionSummaryFor [findingA] "Revenue").severity
        = aggregate_findings ([findingA].filter
            (fun f => f.category == (sectionSummaryFor [findingA] "Revenue").«section»))
    ∧ ∃ s ∈ build_section_summaries [findingA], s.«section» = findingA.category := by
  constructor
  · exact ((C3_section_summaries [findingA]).1 (sectionSummaryFor [findingA] "Revenue")
      (List.mem_singleton_self _)).1
  · exact (C3_section_summaries [findingA]).2 findingA (List.mem_singleton_self findingA)

/-- compose_overall_summary from checks.py: free-text sentence enumerating the
counts of errors, warnings, passes; zero counts ARE omitted here (Python
truthiness on counter.get), and the empty input yields the fixed sentence. -/
def compose_overall_summary (findings : List AuditFinding) : String :=
  if findings = [] then "No automated findings generated."
  else
    let nerr := findings.countP (fun f => decide (f.severity = Severity.ERROR))
    let nwarn := findings.countP (fun f => decide (f.severity = Severity.WARNING))
    let npass := findings.countP (fun f => decide (f.severity = Severity.PASS))
    let parts :=
      (if nerr ≠ 0 then [toString nerr ++ " error(s)"] else [])
      ++ (if nwarn ≠ 0 then [toString nwarn ++ " warning(s)"] else [])
      ++ (if npass ≠ 0 then [toString npass ++ " check(s) passed"] else [])
    "Overall results: " ++ String.intercalate ", " parts ++ "."

/-- Dynamic values stored in the loosely-typed Python dict payloads (payload
entries and the validator-state metadata): None, int, str, or a nested dict. -/
inductive PyVal where
  | vnone
  | vint (i : ℤ)
  | vstr (s : String)
  | vdict (entries : List (String × PyVal))

/-- Python dict.get with default None is modelled as an optional lookup of the
first entry with the key (dict keys are unique). -/
def pyGet (m : List (String × PyVal)) (k : String) : Option PyVal :=
  (m.find? (fun p => p.1 == k)).map Prod.snd

/-- Python truthiness of the dynamic values. -/
def pyTruthy : PyVal → Bool
  | PyVal.vnone => false
  | PyVal.vint i => decide (i ≠ 0)
  | PyVal.vstr s => decide (s ≠ "")
  | PyVal.vdict m => !m.isEmpty

/-- Python str() of a dynamic value as interpolated into f-strings; the dict
rendering is abstracted (no verified message interpolates a dict). -/
def pyStr : PyVal → String
  | PyVal.vnone => "None"
  | PyVal.vint i => toString i
  | PyVal.vstr s => s
  | PyVal.vdict _ => "<dict>"

/-- Python int() coercion on a dynamic value: ints pass through, strings are
parsed as optionally signed decimal integers (surrounding whitespace allowed),
None and dicts raise (TypeError), a non-numeric string raises (ValueError);
both failures are modelled as none because the callers catch exactly them. -/
def pyInt : PyVal → Option ℤ
  | PyVal.vint i => some i
  | PyVal.vstr s => s.trim.toInt?
  | _ => none

/-- AuditReport model from form_auditor/models.py. -/
structure AuditReport where
  organisation_ein : String
  organisation_name : String
  year : Option ℤ
  overall_severity : Severity
  findings : List AuditFinding
  sections : List AuditSectionSummary := []
  overall_summary : Option String := none
  notes : Option String := none
deriving DecidableEq, Repr

/-- ValidatorState model from form_auditor/models.py; the loosely-typed
metadata dict is an insertion-ordered association list of dynamic values. -/
structure ValidatorState where
  extraction : ExtractedIrsForm990PfDataSchema
  initial_findings : List AuditFinding := []
  metadata : List (String × PyVal) := []

/-- finalize_report from form_auditor/agent.py (the output validator): merge
the deterministic initial findings with the model findings, recompute the
aggregate severity, the section summaries and the overall summary from the
merged set, derive notes and year from the metadata dict, prefer the
extraction's legal name and EIN over the model's whenever they are non-empty
(Python or on strings), and force-write all of these into the report. -/
def finalize_report (deps : ValidatorState) (report : AuditReport) : AuditReport :=
  let merged_findings := _merge_findings deps.initial_findings report.findings
  let overall := aggregate_findings merged_findings
  let sections := build_section_summaries merged_findings
  let overall_summary := compose_overall_summary merged_findings
  let notes : Option String :=
    match report.notes with
    | some n => some n
    | none =>
      match pyGet deps.metadata "source" with
      | some v => if pyTruthy v then some ("Reviewed data source: " ++ pyStr v ++ ".") else none
      | none => none
  let year : Option ℤ :=
    match pyGet deps.metadata "return_year" with
    | some PyVal.vnone => none
    | some v => pyInt v
    | none => none
  let organisation_name :=
    if deps.extraction.core_organization_metadata.legal_name ≠ "" then
      deps.extraction.core_organization_metadata.legal_name
    else report.organisation_name
  let organisation_ein :=
    if deps.extraction.core_organization_metadata.ein ≠ "" then
      deps.extraction.core_organization_metadata.ein
    else report.organisation_ein
  { report with
    organisation_ein := organisation_ein
    organisation_name := organisation_name
    year := year
    findings := merged_findings
    overall_severity := overall
    sections := sections
    overall_summary := some overall_summary
    notes := notes }

theorem mem_keys_dictInsert (m : List (String × AuditFinding)) (k : String) (v : AuditFinding)
    (k' : String) (h : k' ∈ m.map Prod.fst) : k' ∈ (dictInsert m k v).map Prod.fst := by
  induction m with
  | nil => simp at h
  | cons p rest ih =>
    by_cases hp : p.1 = k
    · simpa [dictInsert, hp] using h
    · simp only [dictInsert, if_neg hp, List.map_cons, List.mem_cons] at h ⊢
      rcases h with h | h
      · exact Or.inl h
      · exact Or.inr (ih h)

theorem self_key_dictInsert (m : List (String × AuditFinding)) (k : String) (v : AuditFinding) :
    k ∈ (dictInsert m k v).map Prod.fst := by
  induction m with
  | nil => simp [dictInsert]
  | cons p rest ih =>
    by_cases hp : p.1 = k
    · simp [dictInsert, hp]
    · simp only [dictInsert, if_neg hp, List.map_cons, List.mem_cons]
      exact Or.inr ih

theorem mem_keys_foldl_of_mem_keys (fs : List AuditFinding) :
    ∀ (m : List (String × AuditFinding)) (k' : String), k' ∈ m.map Prod.fst →
      k' ∈ ((fs.foldl (fun m f => dictInsert m f.check_id f) m).map Prod.fst) := by
  induction fs with
  | nil => intro m k' h; exact h
  | cons c rest ih =>
    intro m k' h
    exact ih (dictInsert m c.check_id c) k' (mem_keys_dictInsert m c.check_id c k' h)

theorem mem_keys_foldl_of_mem (fs : List AuditFinding) :
    ∀ (m : List (String × AuditFinding)) (f : AuditFinding), f ∈ fs →
      f.check_id ∈ ((fs.foldl (fun m f => dictInsert m f.check_id f) m).map Prod.fst) := by
  induction fs with
  | nil => intro m f h; simp at h
  | cons c rest ih =>
    intro m f hf
    simp only [List.foldl_cons]
    rcases List.mem_cons.mp hf with hf | hf
    · subst hf
      exact mem_keys_foldl_of_mem_keys rest (dictInsert m f.check_id f) f.check_id
        (self_key_dictInsert m f.check_id f)
    · exact ih (dictInsert m c.check_id c) f hf

theorem merge_preserves_base_ids (findings added : List AuditFinding) (f : AuditFinding)
    (hf : f ∈ findings) : ∃ g ∈ _merge_findings findings added, g.check_id = f.check_id := by
  have hkey : f.check_id ∈ ((added.foldl (fun m f => dictInsert m f.check_id f)
      (findings.foldl (fun m f => dictInsert m f.check_id f) [])).map Prod.fst) :=
    mem_keys_foldl_of_mem_keys added _ f.check_id (mem_keys_foldl_of_mem findings [] f hf)
  have hw : WellKeyed (added.foldl (fun m f => dictInsert m f.check_id f)
      (findings.foldl (fun m f => dictInsert m f.check_id f) [])) :=
    wellKeyed_foldl added _ (wellKeyed_foldl findings [] (by intro p hp; simp at hp))
  obtain ⟨p, hp, hpk⟩ := List.mem_map.mp hkey
  exact ⟨p.2, List.mem_map_of_mem Prod.snd hp, (hw p hp).trans hpk⟩

/-- C9: the finalized report's findings equal the identifier-keyed merge of
the deterministic findings with the model's findings; its overall severity,
section summaries and overall summary are recomputed from that merged set;
its organisation name and EIN come from the filing whenever the filing's
values are non-empty; every deterministic finding's identifier survives in
the final findings (the model cannot suppress one by omitting it); and the
overall severity the model returns has no influence on the finalized overall
severity. -/
theorem C9_finalize_report (deps : ValidatorState) (report : AuditReport) :
    (finalize_report deps report).findings
        = _merge_findings deps.initial_findings report.findings
    ∧ (finalize_report deps report).overall_severity
        = aggregate_findings ((finalize_report deps report).findings)
    ∧ (finalize_report deps report).sections
        = build_section_summaries ((finalize_report deps report).findings)
    ∧ (finalize_report deps report).overall_summary
        = some (compose_overall_summary ((finalize_report deps report).findings))
    ∧ (deps.extraction.core_organization_metadata.legal_name ≠ "" →
        (finalize_report deps report).organisation_name
          = deps.extraction.core_organization_metadata.legal_name)
    ∧ (deps.extraction.core_organization_metadata.ein ≠ "" →
        (finalize_report deps report).organisation_ein
          = deps.extraction.core_organization_metadata.ein)
    ∧ (∀ f ∈ deps.initial_findings,
        ∃ g ∈ (finalize_report deps report).findings, g.check_id = f.check_id)
    ∧ (∀ s₁ s₂ : Severity,
        (finalize_report deps { report with overall_severity := s₁ }).overall_severity
          = (finalize_report deps { report with overall_severity := s₂ }).overall_severity) := by
  refine ⟨rfl, rfl, rfl, rfl, ?_, ?_, ?_, fun s₁ s₂ => rfl⟩
  · intro h
    simp [finalize_report, h]
  · intro h
    simp [finalize_report, h]
  · intro f hf
    exact merge_preserves_base_ids deps.initial_findings report.findings f hf

/-- A model-returned report draft used to instantiate the finalization claim. -/
def sampleReport : AuditReport :=
  { organisation_ein := ""
    organisation_name := "Model Org"
    year := none
    overall_severity := Severity.PASS
    findings := [findingB2]
    sections := []
    overall_summary := none
    notes := none }

/-- The validator state for the concrete finalization scenario. -/
def sampleState : ValidatorState :=
  { extraction := sampleFiling
    initial_findings := [findingA, findingB]
    metadata := [] }

/-- Witness for C9 at a concrete state and report: the filing's non-empty
legal name and EIN override the model's, and the deterministic finding with
identifier revenue_totals survives the merge. -/
theorem C9_finalize_report_witness :
    (finalize_report sampleState sampleReport).organisation_name
        = sampleState.extraction.core_organization_metadata.legal_name
    ∧ (finalize_report sampleState sampleReport).organisation_ein
        = sampleState.extraction.core_organization_metadata.ein
    ∧ ∃ g ∈ (finalize_report sampleState sampleReport).findings,
        g.check_id = findingA.check_id := by
  obtain ⟨-, -, -, -, h5, h6, h7, -⟩ := C9_finalize_report sampleState sampleReport
  exact ⟨h5 (by decide), h6 (by decide), h7 findingA (by simp [sampleState])⟩

/-- irs_ein_lookup from checks.py: the registry stub unconditionally reports
unconfirmed with confidence 0.2 and a fixed note. -/
def irs_ein_lookup (_ein : String) : Bool × ℚ × String :=
  (false, 0.2, "IRS verification unavailable in current environment.")

/-- verify_ein from form_auditor/agent.py: look the extraction's EIN up in
the registry stub and emit a Pass finding when confirmed, otherwise a Warning
finding carrying the stub's confidence and note. -/
def verify_ein (deps : ValidatorState) : AuditFinding :=
  let ein := deps.extraction.core_organization_metadata.ein
  let r := irs_ein_lookup ein
  if r.1 then
    { check_id := "irs_ein_match"
      category := "Compliance"
      severity := Severity.PASS
      message := "EIN confirmed against IRS index."
      mitigation := some "Document verification in the filing workpapers."
      confidence := r.2.1 }
  else
    { check_id := "irs_ein_match"
      category := "Compliance"
      severity := Severity.WARNING
      message := "EIN " ++ ein ++ " could not be confirmed. " ++ r.2.2
      mitigation := some "Verify the EIN against the IRS EO BMF or IRS determination letter."
      confidence := r.2.1 }

/-- C10: for every state, the EIN-verification tool produces the Warning
finding with check identifier irs_ein_match and confidence 0.2 (the registry
stub always answers unconfirmed with confidence 0.2), so the Pass branch is
never taken. -/
theorem C10_verify_ein_always_warning (deps : ValidatorState) :
    verify_ein deps =
      { check_id := "irs_ein_match"
        category := "Compliance"
        severity := Severity.WARNING
        message := "EIN " ++ deps.extraction.core_organization_metadata.ein
          ++ " could not be confirmed. "
          ++ "IRS verification unavailable in current environment."
        mitigation := some "Verify the EIN against the IRS EO BMF or IRS determination letter."
        confidence := 0.2 }
    ∧ (verify_ein deps).severity ≠ Severity.PASS := by
  refine ⟨?_, ?_⟩
  · simp [verify_ein, irs_ein_lookup]
  · intro h
    simp [verify_ein, irs_ein_lookup] at h

/-- The Python exceptions that can escape _resolve_year: AttributeError from
accessing an undeclared pydantic model attribute, and the ValueError raised
when no candidate resolves. -/
inductive PyError where
  | attributeError
  | valueError
deriving DecidableEq, Repr

/-- Python attribute access on a CoreOrganizationMetadata instance: the 13
declared fields answer with their values, any other attribute name raises
AttributeError (pydantic models reject undeclared attributes). -/
def coreGetattr (core : CoreOrganizationMetadata) : String → Except PyError PyVal
  | "ein" => Except.ok (PyVal.vstr core.ein)
  | "legal_name" => Except.ok (PyVal.vstr core.legal_name)
  | "phone_number" => Except.ok (PyVal.vstr core.phone_number)
  | "website_url" => Except.ok (PyVal.vstr core.website_url)
  | "return_type" => Except.ok (PyVal.vstr core.return_type)
  | "amended_return" => Except.ok (PyVal.vstr core.amended_return)
  | "group_exemption_number" => Except.ok (PyVal.vstr core.group_exemption_number)
  | "subsection_code" => Except.ok (PyVal.vstr core.subsection_code)
  | "ruling_date" => Except.ok (PyVal.vstr core.ruling_date)
  | "accounting_method" => Except.ok (PyVal.vstr core.accounting_method)
  | "organization_type" => Except.ok (PyVal.vstr core.organization_type)
  | "year_of_formation" => Except.ok (PyVal.vstr core.year_of_formation)
  | "incorporation_state" => Except.ok (PyVal.vstr core.incorporation_state)
  | _ => Except.error PyError.attributeError

/-- The skip test of the _resolve_year loop: Python membership of the
candidate in the tuple (None, ""). -/
def pySkipCandidate : PyVal → Bool
  | PyVal.vnone => true
  | PyVal.vstr s => s == ""
  | _ => false

/-- The candidate loop of _resolve_year: skip candidates equal to None or the
empty string, return the first int() coercion that succeeds (TypeError and
ValueError from int() are caught and skipped). -/
def firstIntCandidate : List PyVal → Option ℤ
  | [] => none
  | c :: rest =>
    if pySkipCandidate c then firstIntCandidate rest
    else
      match pyInt c with
      | some y => some y
      | none => firstIntCandidate rest

/-- _resolve_year from analyst/__init__.py.  The candidates tuple is built
eagerly, so the attribute access
extraction.core_organization_metadata.calendar_year is evaluated before any
candidate is examined; metadata sub-candidates require the metadata entry to
be a dict.  The loop then takes the first non-None, non-empty,
integer-coercible candidate, and raises ValueError if none qualifies. -/
def _resolve_year (entry : List (String × PyVal)) (core : CoreOrganizationMetadata) :
    Except PyError ℤ :=
  match coreGetattr core "calendar_year" with
  | Except.error e => Except.error e
  | Except.ok filingYear =>
    let mdCandidate := fun (k : String) =>
      match pyGet entry "metadata" with
      | some (PyVal.vdict m) => (pyGet m k).getD PyVal.vnone
      | _ => PyVal.vnone
    let candidates : List PyVal :=
      [ (pyGet entry "calendar_year").getD PyVal.vnone
      , (pyGet entry "year").getD PyVal.vnone
      , (pyGet entry "tax_year").getD PyVal.vnone
      , (pyGet entry "return_year").getD PyVal.vnone
      , mdCandidate "return_year"
      , mdCandidate "tax_year"
      , filingYear ]
    match firstIntCandidate candidates with
    | some y => Except.ok y
    | none => Except.error PyError.valueError

/-- C2 (code bug): CoreOrganizationMetadata declares no calendar_year field,
and the candidates tuple of _resolve_year eagerly evaluates
extraction.core_organization_metadata.calendar_year, so every call raises
AttributeError before any candidate is examined — even an entry carrying an
explicit calendar_year of 2020, which the claim says must resolve to 2020. -/
theorem C2_resolve_year_always_attribute_error :
    (∀ (entry : List (String × PyVal)) (core : CoreOrganizationMetadata),
      _resolve_year entry core = Except.error PyError.attributeError)
    ∧ _resolve_year [("calendar_year", PyVal.vint 2020)]
        sampleFiling.core_organization_metadata
        = Except.error PyError.attributeError := by
  refine ⟨fun entry core => rfl, rfl⟩

/-- TrendDirection enum from analyst/models.py. -/
inductive TrendDirection where
  | IMPROVING
  | DECLINING
  | STABLE
  | VOLATILE
deriving DecidableEq, Repr

/-- The cleaned value sequence of _direction_from_points: the non-null values
in order. -/
def cleanValues (values : List (Option ℚ)) : List ℚ :=
  values.filterMap id

/-- The tolerance of _direction_from_points: 2 percent of the absolute first
value when it is nonzero (Python truthiness), else a flat 0.01. -/
def directionTolerance (start : ℚ) : ℚ :=
  if start ≠ 0 then |start| * 0.02 else 0.01

/-- The interior swing count of _direction_from_points: the number of interior
indices whose two adjacent deltas have opposite signs (their product is
negative), written as a sliding window over three consecutive values. -/
def interiorSwings : List ℚ → ℕ
  | a :: b :: c :: rest => (if (b - a) * (c - b) < 0 then 1 else 0) + interiorSwings (b :: c :: rest)
  | _ => 0

/-- _direction_from_points from analyst/metrics.py.  The source's re-check
that start or end is None is unreachable (the cleaned list holds no None) and
is dropped; the volatile branch requires more than 2 clean points and a swing
count of at least the floor of half the clean point count (Python integer
division len(clean) // 2). -/
def _direction_from_points (values : List (Option ℚ)) : TrendDirection :=
  let clean := cleanValues values
  if clean.length < 2 then TrendDirection.STABLE
  else
    let start := clean.head?.getD 0
    let fin := clean.getLast?.getD 0
    let delta := fin - start
    let tolerance := directionTolerance start
    if |delta| ≤ tolerance then TrendDirection.STABLE
    else if 2 < clean.length ∧ clean.length / 2 ≤ interiorSwings clean then
      TrendDirection.VOLATILE
    else if 0 < delta then TrendDirection.IMPROVING
    else TrendDirection.DECLINING

/-- C4 counterexample: for the three-point series 100, 200, 150 the code
classifies VOLATILE (1 swing, and the integer half 3 // 2 = 1 is reached),
while the claim's reading of "swing count at least half the point count"
(1 at least 3/2) fails, and with delta 50 above the tolerance 2 the claim
then predicts IMPROVING, not VOLATILE. -/
theorem C4_half_count_counterexample :
    _direction_from_points [some 100, some 200, some 150] = TrendDirection.VOLATILE
    ∧ interiorSwings (cleanValues [some 100, some 200, some 150]) = 1
    ∧ ¬ ((3 : ℚ) / 2 ≤ ((interiorSwings (cleanValues [some 100, some 200, some 150]) : ℚ)))
    ∧ directionTolerance 100 < |(150 : ℚ) - 100|
    ∧ (0 : ℚ) < (150 : ℚ) - 100
    ∧ TrendDirection.VOLATILE ≠ TrendDirection.IMPROVING := by
  have hswings : interiorSwings (cleanValues [some 100, some 200, some 150]) = 1 := by
    norm_num [interiorSwings, cleanValues]
  refine ⟨?_, hswings, ?_, ?_, by norm_num, by decide⟩
  · have hclean : List.filterMap id [some (100 : ℚ), some 200, some 150] = [100, 200, 150] :=
      rfl
    norm_num [_direction_from_points, cleanValues, directionTolerance, interiorSwings,
      abs_of_nonneg, hclean]
  · rw [hswings]
    norm_num
  · norm_num [directionTolerance, abs_of_nonneg]

/-- C4 amended: over the cleaned (non-null) values, _direction_from_points
returns STABLE for fewer than 2 points; STABLE when the absolute delta
between last and first is within the tolerance (2 percent of the absolute
first value when nonzero, else flat 0.01); otherwise VOLATILE when there are
at least 3 points and the interior swing count reaches the integer half
(floor) of the point count — checked before the monotonic classification —
and otherwise IMPROVING for positive delta and DECLINING for negative delta. -/
theorem C4_direction_classification (values : List (Option ℚ)) :
    ((cleanValues values).length < 2 →
      _direction_from_points values = TrendDirection.STABLE)
    ∧ (2 ≤ (cleanValues values).length →
        |(cleanValues values).getLast?.getD 0 - (cleanValues values).head?.getD 0|
            ≤ directionTolerance ((cleanValues values).head?.getD 0) →
        _direction_from_points values = TrendDirection.STABLE)
    ∧ (3 ≤ (cleanValues values).length →
        directionTolerance ((cleanValues values).head?.getD 0)
            < |(cleanValues values).getLast?.getD 0 - (cleanValues values).head?.getD 0| →
        (cleanValues values).length / 2 ≤ interiorSwings (cleanValues values) →
        _direction_from_points values = TrendDirection.VOLATILE)
    ∧ (2 ≤ (cleanValues values).length →
        directionTolerance ((cleanValues values).head?.getD 0)
            < |(cleanValues values).getLast?.getD 0 - (cleanValues values).head?.getD 0| →
        ((cleanValues values).length < 3
          ∨ interiorSwings (cleanValues values) < (cleanValues values).length / 2) →
        0 < (cleanValues values).getLast?.getD 0 - (cleanValues values).head?.getD 0 →
        _direction_from_points values = TrendDirection.IMPROVING)
    ∧ (2 ≤ (cleanValues values).length →
        directionTolerance ((cleanValues values).head?.getD 0)
            < |(cleanValues values).getLast?.getD 0 - (cleanValues values).head?.getD 0| →
        ((cleanValues values).length < 3
          ∨ interiorSwings (cleanValues values) < (cleanValues values).length / 2) →
        (cleanValues values).getLast?.getD 0 - (cleanValues values).head?.getD 0 < 0 →
        _direction_from_points values = TrendDirection.DECLINING) := by
  refine ⟨?_, ?_, ?_, ?_, ?_⟩
  · intro h
    simp only [_direction_from_points]
    rw [if_pos h]
  · intro h2 hle
    simp only [_direction_from_points]
    rw [if_neg (Nat.not_lt.mpr h2), if_pos hle]
  · intro h3 htol hsw
    simp only [_direction_from_points]
    rw [if_neg (Nat.not_lt.mpr (le_trans (by norm_num) h3)),
      if_neg (not_le.mpr htol),
      if_pos ⟨Nat.lt_of_lt_of_le (by norm_num) h3, hsw⟩]
  · intro h2 htol hnv hpos
    simp only [_direction_from_points]
    have hcond : ¬(2 < (cleanValues values).length
        ∧ (cleanValues values).length / 2 ≤ interiorSwings (cleanValues values)) := by
      rcases hnv with h | h
      · exact fun hc => absurd hc.1 (by omega)
      · exact fun hc => absurd hc.2 (by omega)
    rw [if_neg (Nat.not_lt.mpr h2), if_neg (not_le.mpr htol), if_neg hcond, if_pos hpos]
  · intro h2 htol hnv hneg
    simp only [_direction_from_points]
    have hcond : ¬(2 < (cleanValues values).length
        ∧ (cleanValues values).length / 2 ≤ interiorSwings (cleanValues values)) := by
      rcases hnv with h | h
      · exact fun hc => absurd hc.1 (by omega)
      · exact fun hc => absurd hc.2 (by omega)
    rw [if_neg (Nat.not_lt.mpr h2), if_neg (not_le.mpr htol), if_neg hcond,
      if_neg (not_lt.mpr (le_of_lt hneg))]

/-- Witness for C4 at a concrete series: 100, 110, 121 is strictly increasing
with delta 21 above the tolerance 2 and no interior swing, so the amended
classification yields IMPROVING. -/
theorem C4_direction_classification_witness :
    _direction_from_points [some (100 : ℚ), some 110, some 121]
      = TrendDirection.IMPROVING := by
  have hclean : cleanValues [some (100 : ℚ), some 110, some 121] = [100, 110, 121] := rfl
  have hh : (([100, 110, 121] : List ℚ).head?.getD 0) = 100 := rfl
  have hl : (([100, 110, 121] : List ℚ).getLast?.getD 0) = 121 := rfl
  refine (C4_direction_classification [some 100, some 110, some 121]).2.2.2.1 ?_ ?_ ?_ ?_
  · rw [hclean]
    norm_num
  · rw [hclean, hh, hl]
    norm_num [directionTolerance, abs_of_nonneg]
  · right
    rw [hclean]
    have hsw : interiorSwings [(100 : ℚ), 110, 121] = 0 := by
      norm_num [interiorSwings]
    rw [hsw]
    norm_num
  · rw [hclean, hh, hl]
    norm_num

/-- _growth from analyst/metrics.py: year-over-year growth, null when the
previous value is null or zero (Python membership in (None, 0)). -/
def _growth (current : ℚ) (previous : Option ℚ) : Option ℚ :=
  match previous with
  | none => none
  | some p => if p = 0 then none else some ((current - p) / p)

/-- TrendMetricPoint model from analyst/models.py. -/
structure TrendMetricPoint where
  year : ℤ
  value : ℚ
  growth : Option ℚ := none
deriving DecidableEq, Repr

/-- TrendMetric model from analyst/models.py; the compound growth rate is a
real number because the source computes it with float exponentiation. -/
structure TrendMetric where
  name : String
  unit : String
  description : String
  points : List TrendMetricPoint
  cagr : Option ℝ := none
  direction : TrendDirection := TrendDirection.STABLE
  notes : Option String := none

/-- _cagr from analyst/metrics.py: null unless both endpoints are present and
strictly positive and the period count is positive, else the real
exponentiation formula. -/
noncomputable def _cagr (start fin : Option ℚ) (periods : ℤ) : Option ℝ :=
  match start, fin with
  | some s, some e =>
    if s ≤ 0 ∨ e ≤ 0 ∨ periods ≤ 0 then none
    else some (((e : ℝ) / (s : ℝ)) ^ ((1 : ℝ) / (periods : ℝ)) - 1)
  | _, _ => none

/-- The growth-assignment loop of _metric_from_series applied to the points
after the first: each point's growth is computed against the previous point's
value. -/
def assignGrowthGo : ℚ → List TrendMetricPoint → List TrendMetricPoint
  | _, [] => []
  | prev, p :: rest =>
    { p with growth := _growth p.value (some prev) } :: assignGrowthGo p.value rest

/-- The growth-assignment loop of _metric_from_series: the first point keeps
growth None, every later point gets growth against its predecessor. -/
def assignGrowth : List TrendMetricPoint → List TrendMetricPoint
  | [] => []
  | p0 :: rest => p0 :: assignGrowthGo p0.value rest

/-- _metric_from_series from analyst/metrics.py: null values default to 0.0
(Python value or 0.0), growth is assigned pointwise, direction classifies the
point values, and the compound growth rate is computed between the first and
last point value over point count minus one periods whenever there are at
least 2 points. -/
noncomputable def _metric_from_series (name unit description : String)
    (values : List (ℤ × Option ℚ)) : TrendMetric :=
  let points := assignGrowth (values.map (fun v =>
    { year := v.1, value := v.2.getD 0, growth := none }))
  let data_values := points.map (fun p => p.value)
  let direction := _direction_from_points (data_values.map some)
  let cagr :=
    if 2 ≤ points.length then
      _cagr (some ((points.head?.map (fun p => p.value)).getD 0))
            (some ((points.getLast?.map (fun p => p.value)).getD 0))
            ((points.length : ℤ) - 1)
    else none
  { name := name
    unit := unit
    description := description
    points := points
    cagr := cagr
    direction := direction
    notes := none }

theorem assignGrowthGo_value_map (prev : ℚ) (l : List TrendMetricPoint) :
    (assignGrowthGo prev l).map (fun p => p.value) = l.map (fun p => p.value) := by
  induction l generalizing prev with
  | nil => rfl
  | cons p rest ih => simp [assignGrowthGo, ih]

theorem assignGrowth_value_map (l : List TrendMetricPoint) :
    (assignGrowth l).map (fun p => p.value) = l.map (fun p => p.value) := by
  cases l with
  | nil => rfl
  | cons p rest => simp [assignGrowth, assignGrowthGo_value_map]

theorem metric_cagr_eq (name unit description : String) (values : List (ℤ × Option ℚ)) :
    (_metric_from_series name unit description values).cagr
      = if 2 ≤ values.length then
          _cagr (some ((values.map (fun v => v.2.getD 0)).head?.getD 0))
                (some ((values.map (fun v => v.2.getD 0)).getLast?.getD 0))
                ((values.length : ℤ) - 1)
        else none := by
  have hmap : (assignGrowth (values.map (fun v =>
      ({ year := v.1, value := v.2.getD 0, growth := none } : TrendMetricPoint)))).map
        (fun p => p.value) = values.map (fun v => v.2.getD 0) := by
    rw [assignGrowth_value_map]
    simp [List.map_map, Function.comp_def]
  have hlen : (assignGrowth (values.map (fun v =>
      ({ year := v.1, value := v.2.getD 0, growth := none } : TrendMetricPoint)))).length
        = values.length := by
    have h := congrArg List.length hmap
    simpa using h
  have hh : (assignGrowth (values.map (fun v =>
      ({ year := v.1, value := v.2.getD 0, growth := none } : TrendMetricPoint)))).head?.map
        (fun p => p.value) = (values.map (fun v => v.2.getD 0)).head? := by
    rw [← List.head?_map, hmap]
  have hl : (assignGrowth (values.map (fun v =>
      ({ year := v.1, value := v.2.getD 0, growth := none } : TrendMetricPoint)))).getLast?.map
        (fun p => p.value) = (values.map (fun v => v.2.getD 0)).getLast? := by
    rw [← List.getLast?_map, hmap]
  simp only [_metric_from_series]
  rw [hlen, hh, hl]

/-- C7: a trend metric's CAGR is non-null exactly when the series has at
least 2 points and both (null-defaulted) endpoint values are strictly
positive, in which case it equals (end/start) to the power 1/periods minus 1
with periods the point count minus 1; concretely, the series 100, 110, 121
yields exactly 1/10 (the 0.10 of the claim), and a nonpositive start or end
yields null. -/
theorem C7_metric_cagr :
    (∀ (name unit description : String) (values : List (ℤ × Option ℚ)),
      ((_metric_from_series name unit description values).cagr.isSome ↔
        (2 ≤ values.length
          ∧ 0 < ((values.map (fun v => v.2.getD 0)).head?.getD 0)
          ∧ 0 < ((values.map (fun v => v.2.getD 0)).getLast?.getD 0)))
      ∧ (2 ≤ values.length →
          0 < ((values.map (fun v => v.2.getD 0)).head?.getD 0) →
          0 < ((values.map (fun v => v.2.getD 0)).getLast?.getD 0) →
          (_metric_from_series name unit description values).cagr
            = some ((((((values.map (fun v => v.2.getD 0)).getLast?.getD 0) : ℚ) : ℝ)
                  / ((((values.map (fun v => v.2.getD 0)).head?.getD 0) : ℚ) : ℝ))
                ^ ((1 : ℝ) / ((values.length : ℝ) - 1)) - 1)))
    ∧ (_metric_from_series "Total Revenue" "USD" "x"
        [(2020, some 100), (2021, some 110), (2022, some 121)]).cagr
          = some ((1 : ℝ) / 10)
    ∧ (_metric_from_series "Total Revenue" "USD" "x"
        [(2020, some 0), (2021, some 110), (2022, some 121)]).cagr = none
    ∧ (_metric_from_series "Total Revenue" "USD" "x"
        [(2020, some 100), (2021, some 110), (2022, some (-121))]).cagr = none := by
  have general : ∀ (name unit description : String) (values : List (ℤ × Option ℚ)),
      ((_metric_from_series name unit description values).cagr.isSome ↔
        (2 ≤ values.length
          ∧ 0 < ((values.map (fun v => v.2.getD 0)).head?.getD 0)
          ∧ 0 < ((values.map (fun v => v.2.getD 0)).getLast?.getD 0)))
      ∧ (2 ≤ values.length →
          0 < ((values.map (fun v => v.2.getD 0)).head?.getD 0) →
          0 < ((values.map (fun v => v.2.getD 0)).getLast?.getD 0) →
          (_metric_from_series name unit description values).cagr
            = some ((((((values.map (fun v => v.2.getD 0)).getLast?.getD 0) : ℚ) : ℝ)
                  / ((((values.map (fun v => v.2.getD 0)).head?.getD 0) : ℚ) : ℝ))
                ^ ((1 : ℝ) / ((values.length : ℝ) - 1)) - 1)) := by
    intro name unit description values
    constructor
    · rw [metric_cagr_eq]
      by_cases h2 : 2 ≤ values.length
      · rw [if_pos h2]
        simp only [_cagr]
        have hp : ¬ ((values.length : ℤ) - 1 ≤ 0) := by omega
        by_cases hg : ((values.map (fun v => v.2.getD 0)).head?.getD 0 ≤ 0
            ∨ (values.map (fun v => v.2.getD 0)).getLast?.getD 0 ≤ 0
            ∨ ((values.length : ℤ) - 1) ≤ 0)
        · rw [if_pos hg]
          simp only [Option.isSome_none, Bool.false_eq_true, false_iff]
          rintro ⟨-, hs, hl⟩
          rcases hg with hg | hg | hg
          · exact absurd hs (not_lt.mpr hg)
          · exact absurd hl (not_lt.mpr hg)
          · exact hp hg
        · rw [if_neg hg]
          push_neg at hg
          simp only [Option.isSome_some, true_iff]
          exact ⟨h2, hg.1, hg.2.1⟩
      · rw [if_neg h2]
        simp [h2]
    · intro h2 hs hl
      rw [metric_cagr_eq, if_pos h2]
      simp only [_cagr]
      have hg : ¬ ((values.map (fun v => v.2.getD 0)).head?.getD 0 ≤ 0
          ∨ (values.map (fun v => v.2.getD 0)).getLast?.getD 0 ≤ 0
          ∨ ((values.length : ℤ) - 1) ≤ 0) := by
        push_neg
        exact ⟨hs, hl, by omega⟩
      rw [if_neg hg]
      congr 1
      push_cast
      ring_nf
  refine ⟨general, ?_, ?_, ?_⟩
  · have h := (general "Total Revenue" "USD" "x"
      [(2020, some 100), (2021, some 110), (2022, some 121)]).2
      (by norm_num)
      (by norm_num)
      (by norm_num)
    rw [h]
    norm_num
    rw [← Real.sqrt_eq_rpow,
      show (121 : ℝ)/100 = (11/10)^2 by norm_num,
      Real.sqrt_sq (by norm_num : (0:ℝ) ≤ 11/10)]
    norm_num
  · have h := (general "Total Revenue" "USD" "x"
      [(2020, some 0), (2021, some 110), (2022, some 121)]).1
    rw [← Option.not_isSome_iff_eq_none, h]
    rintro ⟨-, hs, -⟩
    norm_num at hs
  · have h := (general "Total Revenue" "USD" "x"
      [(2020, some 100), (2021, some 110), (2022, some (-121))]).1
    rw [← Option.not_isSome_iff_eq_none, h]
    rintro ⟨-, -, hl⟩
    norm_num at hl

/-- Witness for C7 at a concrete series: the formula branch applies to the
100, 110, 121 series, whose cagr is the exponentiation formula. -/
theorem C7_metric_cagr_witness :
    (_metric_from_series "Total Revenue" "USD" "x"
        [(2020, some 100), (2021, some 110), (2022, some 121)]).cagr
      = some (((((([(2020, some (100:ℚ)), (2021, some 110), (2022, some 121)].map
              (fun v => v.2.getD 0)).getLast?.getD 0) : ℚ) : ℝ)
            / (((([(2020, some (100:ℚ)), (2021, some 110), (2022, some 121)].map
              (fun v => v.2.getD 0)).head?.getD 0) : ℚ) : ℝ))
          ^ ((1 : ℝ) / ((([(2020, some (100:ℚ)), (2021, some 110), (2022, some 121)] :
              List (ℤ × Option ℚ)).length : ℝ) - 1)) - 1) :=
  (C7_metric_cagr.1 "Total Revenue" "USD" "x"
      [(2020, some 100), (2021, some 110), (2022, some 121)]).2
    (by norm_num) (by norm_num) (by norm_num)
